import Mathlib

/-!
Verification of the UAST-types report generator (`_tools/types/main.go`).

The Go program discovers language drivers, clones or pulls each driver's
repository under a concurrency cap of 3, runs two (stubbed) analysis passes
over each driver, and prints a Markdown table with one row per UAST type and
one column per driver.

The embedding below translates the Go functions into pure Lean functions.
Go `map[string]int` values are modelled as association lists (`CountMap`);
reading an absent key yields the zero value, exactly as in Go.  Output that
the Go code prints to stdout is modelled as the `String` the prints produce,
in print order.  The goroutine fan-out of `maybeCloneOrPullAll` is modelled
twice: once as a pure function recording what the caller can observe (the
returned `error`), and once as a small-step transition system (`SyncStep`)
recording the semaphore/WaitGroup behaviour of the goroutines.
-/

namespace TypesTool

/-- Go `map[string]int`, as an association list. -/
abbrev CountMap := List (String × Nat)

/-- Lookup of a key in a Go map: `some v` when present, `none` when absent. -/
def mapFind : CountMap → String → Option Nat
  | [], _ => none
  | (k', v) :: rest, k => if k' = k then some v else mapFind rest k

/-- Go map read `m[k]`: the stored value, or the zero value 0 when absent. -/
def mapGet (m : CountMap) (k : String) : Nat :=
  (mapFind m k).getD 0

/-- Go `m[k]++`: increment the stored value, inserting 1 when absent. -/
def mapInc : CountMap → String → CountMap
  | [], k => [(k, 1)]
  | (k', v) :: rest, k =>
      if k' = k then (k', v + 1) :: rest else (k', v) :: mapInc rest k

/-- The `driverStats` struct of the Go program.  The two maps are Go maps:
copying the struct by value still aliases the same map, so an update made
through a by-value copy is visible to the caller. -/
structure driverStats where
  url : String
  language : String
  path : String
  fixturesUast : CountMap
  codeUast : CountMap
deriving DecidableEq

/-- The `uastType` struct: one catalog entry, carrying a type name. -/
structure uastType where
  name : String
deriving DecidableEq

/-- `findAllUastTypes`: the hard-coded catalog.  Each entry's name is produced
by `reflect.TypeOf(uast.X\x7b\x7d).String()`, which renders as `uast.X`. -/
def findAllUastTypes : List uastType :=
  [⟨"uast.Identifier"⟩, ⟨"uast.String"⟩, ⟨"uast.Bool"⟩,
   ⟨"uast.QualifiedIdentifier"⟩, ⟨"uast.Comment"⟩, ⟨"uast.Group"⟩,
   ⟨"uast.FunctionGroup"⟩, ⟨"uast.Block"⟩, ⟨"uast.Alias"⟩,
   ⟨"uast.Import"⟩, ⟨"uast.RuntimeImport"⟩, ⟨"uast.RuntimeReImport"⟩,
   ⟨"uast.InlineImport"⟩, ⟨"uast.Argument"⟩, ⟨"uast.FunctionType"⟩,
   ⟨"uast.Function"⟩]

/-- Go `fmt.Printf("%Ns", s)`: right-justify `s` in width `w` with spaces
(no padding when `s` is already at least `w` long). -/
def padLeft (s : String) (w : Nat) : String :=
  String.mk (List.replicate (w - s.length) ' ') ++ s

/-- One table cell, as printed by `fmt.Printf(" %d/%d |", ...)`:
fixtures count, a slash, code count, read from the driver's maps with the
zero default. -/
def formatCell (d : driverStats) (t : uastType) : String :=
  " " ++ toString (mapGet d.fixturesUast t.name) ++ "/" ++
    toString (mapGet d.codeUast t.name) ++ " |"

/-- One table row: the padded type name and one cell per driver, in the
order the drivers appear in the slice, closed by a newline. -/
def formatRow (t : uastType) (drivers : List driverStats) : String :=
  "|" ++ padLeft t.name 25 ++ "|" ++
    String.join (drivers.map (fun d => formatCell d t)) ++ "\n"

/-- The per-driver language cells of the header row (`fmt.Printf("%5s|", ...)`). -/
def headerLanguageCells (drivers : List driverStats) : List String :=
  drivers.map (fun d => padLeft d.language 5 ++ "|")

/-- `formatMarkdownTableHeader`: the header row (one language per driver, in
slice order) followed by the Markdown alignment row. -/
def formatMarkdownTableHeader (drivers : List driverStats) : String :=
  "|" ++ padLeft "" 25 ++ "|" ++ String.join (headerLanguageCells drivers) ++
    "\n| :---------------------- |" ++
    String.join (drivers.map (fun _ => " :-- |")) ++ "\n"

/-- The `header` constant printed before the table. -/
def header : String :=
  "<!-- Code generated by \x27make types\x27 DO NOT EDIT. -->\n# UAST Types\n\nFor every UAST type in every Driver 2 numbers are reported:\n - _fixtures usage_ number of times this type was used in driver _fixtures_ (*.sem.uast files)\n - _code usage_ number of times this type was usind in driver mapping DSL code (normalizer.go)\n\nin the format _<fixtures usage>/<code usage>_.\n\n"

/-- The `footer` constant printed (via `defer`) after the table. -/
def footer : String :=
  "\n**Don\x27t see your favorite AST construct mapped? [Help us!](join-the-community.md)**\n"

/-- The list of table rows: one per catalog entry, in catalog order. -/
def tableRows (drivers : List driverStats) (uastTypes : List uastType) : List String :=
  uastTypes.map (fun t => formatRow t drivers)

/-- `formatMarkdownTable`: everything the function prints, in print order —
header text, table header, one row per catalog entry, footer (deferred). -/
def formatMarkdownTable (drivers : List driverStats) (uastTypes : List uastType) : String :=
  header ++ formatMarkdownTableHeader drivers ++
    String.join (tableRows drivers uastTypes) ++ footer

/-- `analyzeFixtures`: the body is entirely a TODO comment, so the driver is
returned unchanged. -/
def analyzeFixtures (d : driverStats) : driverStats := d

/-- `analyzeCode`: the analysis proper is a TODO comment; the only executed
statement is `driver.codeUast["Identifier"]++`.  The struct is passed by
value but the map inside it is shared, so the increment is visible to the
caller; we model that by returning the updated record. -/
def analyzeCode (d : driverStats) (_uasts : List uastType) : driverStats :=
  { d with codeUast := mapInc d.codeUast "Identifier" }

/-- The analysis loop of `run`: `analyzeFixtures` then `analyzeCode` on every
driver of the slice, unconditionally. -/
def analyzeAll (drivers : List driverStats) (uasts : List uastType) : List driverStats :=
  drivers.map (fun d => analyzeCode (analyzeFixtures d) uasts)

/-- The outcome of one driver's `maybeCloneOrPull` call (success, or the
git clone/pull error). -/
def maybeCloneOrPullResult (ok : Bool) : Except String Unit :=
  if ok then Except.ok () else Except.error "git clone or pull failed"

/-- A Go `go f(...)` statement: the spawned call's return value is discarded. -/
def goDiscard (_ : Except String Unit) : Unit := ()

/-- `maybeCloneOrPullAll` as seen by its caller.  `mkdirOk` is whether
`os.MkdirAll(repoRootPath, ...)` succeeded; `results` gives each driver
goroutine's `maybeCloneOrPull` outcome.  The goroutines are launched with
`go maybeCloneOrPullAsync(...)`, so their `error` results are discarded; after
`wg.Wait()` the function returns `nil` unconditionally. -/
def maybeCloneOrPullAll (mkdirOk : Bool) (results : List Bool) : Except String Unit :=
  if mkdirOk then
    let _ := results.map (fun r => goDiscard (maybeCloneOrPullResult r))
    Except.ok ()
  else Except.error "cannot create clone root"

/-- The `run` pipeline after `listDrivers`: sync all repositories, then run
both analysis passes over every driver, then format the table.  Only a
`maybeCloneOrPullAll` error (i.e. a MkdirAll failure) aborts the run. -/
def run (drivers : List driverStats) (mkdirOk : Bool) (syncResults : List Bool) :
    Except String String :=
  match maybeCloneOrPullAll mkdirOk syncResults with
  | Except.error e => Except.error ("failed to pull driver repos: " ++ e)
  | Except.ok _ =>
      let uastTypes := findAllUastTypes
      let analyzed := analyzeAll drivers uastTypes
      Except.ok (formatMarkdownTable analyzed uastTypes)

/-- Go `strings.LastIndex` for a single character: the index of the last
occurrence, or -1 when absent. -/
def lastIndex : List Char → Char → Int
  | [], _ => -1
  | x :: xs, c =>
      let r := lastIndex xs c
      if r < 0 then (if x = c then 0 else -1) else r + 1

/-- The path derivation in `listDrivers`:
`l.RepositoryURL()[strings.LastIndex(l.RepositoryURL(), "/"):]`.
When the URL has no "/" the index is -1 and the Go slice expression panics;
we model the panic as `none`.  Otherwise the suffix starting at the last "/"
(including it) is stored. -/
def derivePath (url : String) : Option String :=
  let i := lastIndex url.data '/'
  if i < 0 then none else some (String.mk (url.data.drop i.toNat))

/-- Construction of one `driverStats` record in `listDrivers`: language and
URL from the registry, the derived path, and two freshly made empty maps. -/
def mkDriverStats (language url : String) : Option driverStats :=
  (derivePath url).map (fun p => ⟨url, language, p, [], []⟩)

/-! ## Small-step model of the goroutine fan-out

`maybeCloneOrPullAll` spawns one goroutine per driver; each goroutine sends
into the buffered channel `concurent` (capacity 3) before calling
`maybeCloneOrPull` and receives from it when the call returns (a `defer`, so
on every exit path, success or error); `wg.Wait()` blocks the caller until
every goroutine has run its deferred `wg.Done()`.  A task is `pending` after
the `go` statement, `holding` between the channel send and receive (i.e.
while its clone/pull executes), and `done r` after release and `wg.Done()`,
where `r` records whether the clone/pull succeeded. -/

/-- The phase of one sync goroutine. -/
inductive Phase where
  | pending : Phase
  | holding : Phase
  | done : Bool → Phase
deriving DecidableEq

/-- Whether a task currently occupies a slot of the channel semaphore. -/
def isHolding : Phase → Bool
  | Phase.holding => true
  | _ => false

/-- Whether a task has terminated (released the semaphore and run `wg.Done()`). -/
def isDoneB : Phase → Bool
  | Phase.done _ => true
  | _ => false

/-- Number of semaphore slots currently occupied. -/
def holdCount (l : List Phase) : Nat :=
  (l.filter isHolding).length

/-- State of the whole batch: one phase per goroutine, plus whether the main
goroutine has passed `wg.Wait()`. -/
structure SyncState where
  phases : List Phase
  mainDone : Bool
deriving DecidableEq

/-- One scheduler step.  `acquire` is the channel send (blocked unless fewer
than 3 slots are taken); `finish` is the clone/pull returning — with either
outcome `r` — immediately followed by the deferred channel receive and
`wg.Done()`; `join` is `wg.Wait()` unblocking, possible only when every task
has terminated. -/
inductive SyncStep : SyncState → SyncState → Prop where
  | acquire (phases : List Phase) (m : Bool) (i : Nat) :
      phases.get? i = some Phase.pending →
      holdCount phases < 3 →
      SyncStep ⟨phases, m⟩ ⟨phases.set i Phase.holding, m⟩
  | finish (phases : List Phase) (m : Bool) (i : Nat) (r : Bool) :
      phases.get? i = some Phase.holding →
      SyncStep ⟨phases, m⟩ ⟨phases.set i (Phase.done r), m⟩
  | join (phases : List Phase) :
      (∀ p ∈ phases, isDoneB p = true) →
      SyncStep ⟨phases, false⟩ ⟨phases, true⟩

/-- Initial state for `n` drivers: all goroutines spawned, none started,
main blocked at `wg.Wait()`. -/
def initState (n : Nat) : SyncState :=
  ⟨List.replicate n Phase.pending, false⟩

/-- States the batch with `n` drivers can reach. -/
def Reachable (n : Nat) (s : SyncState) : Prop :=
  Relation.ReflTransGen SyncStep (initState n) s

/-! ## Concrete instances used by the test-scenario claims -/

/-- Scenario driver A: language "A", some recorded fixture and code usage. -/
def driverA : driverStats :=
  ⟨"urlA", "A", "/a", [("Identifier", 3)], [("Identifier", 1), ("Comment", 2)]⟩

/-- Scenario driver B: language "B", both usage maps empty. -/
def driverB : driverStats :=
  ⟨"urlB", "B", "/b", [], []⟩

/-- Scenario catalog: the two bare type names of the spec scenario. -/
def scenarioCatalog : List uastType :=
  [⟨"Identifier"⟩, ⟨"Comment"⟩]

/-- A driver as `listDrivers` builds it (empty maps), used as the concrete
driver whose sync is forced to fail. -/
def failedDriver : driverStats :=
  ⟨"https://github.com/bblfsh/python-driver", "python", "/python-driver", [], []⟩

end TypesTool

namespace TypesTool

/-! ## Helper lemmas -/

theorem holdCount_nil : holdCount [] = 0 := rfl

theorem holdCount_cons (a : Phase) (l : List Phase) :
    holdCount (a :: l) = (if isHolding a = true then 1 else 0) + holdCount l := by
  by_cases h : isHolding a = true <;>
    simp [holdCount, List.filter_cons, h, Nat.add_comm]

theorem holdCount_set (l : List Phase) (i : Nat) (x p : Phase)
    (h : l.get? i = some p) :
    holdCount (l.set i x) + (if isHolding p = true then 1 else 0)
      = holdCount l + (if isHolding x = true then 1 else 0) := by
  induction l generalizing i with
  | nil => simp at h
  | cons a l ih =>
      cases i with
      | zero =>
          simp only [List.get?] at h
          cases h
          simp [List.set, holdCount_cons]
          omega
      | succ i =>
          simp only [List.get?] at h
          have := ih i h
          simp [List.set, holdCount_cons]
          omega

theorem holdCount_eq_zero (l : List Phase) (h : ∀ p ∈ l, isHolding p = false) :
    holdCount l = 0 := by
  induction l with
  | nil => rfl
  | cons a l ih =>
      rw [holdCount_cons, h a (List.mem_cons_self a l),
        ih (fun p hp => h p (List.mem_cons_of_mem a hp))]
      simp

theorem isHolding_eq_false_of_isDoneB (p : Phase) (h : isDoneB p = true) :
    isHolding p = false := by
  cases p <;> simp_all [isDoneB, isHolding]

/-- The combined inductive invariant: the semaphore never exceeds its
capacity, and once the main goroutine has passed `wg.Wait()` every task has
terminated. -/
def Inv (s : SyncState) : Prop :=
  holdCount s.phases ≤ 3 ∧
    (s.mainDone = true → ∀ p ∈ s.phases, isDoneB p = true)

theorem inv_init (n : Nat) : Inv (initState n) := by
  constructor
  · have : holdCount (List.replicate n Phase.pending) = 0 :=
      holdCount_eq_zero _ (by intro p hp; rw [List.eq_of_mem_replicate hp]; rfl)
    simp [initState, this]
  · intro h
    simp [initState] at h

theorem inv_step (s s' : SyncState) (hs : Inv s) (st : SyncStep s s') : Inv s' := by
  obtain ⟨h3, hdone⟩ := hs
  cases st with
  | acquire phases m i hp hc =>
      constructor
      · have h3' : holdCount phases ≤ 3 := h3
        have := holdCount_set phases i Phase.holding Phase.pending hp
        simp [isHolding] at this
        show holdCount (phases.set i Phase.holding) ≤ 3
        omega
      · intro hm
        have hall := hdone hm
        have : isDoneB Phase.pending = true := hall _ (List.get?_mem hp)
        simp [isDoneB] at this
  | finish phases m i r hp =>
      constructor
      · have h3' : holdCount phases ≤ 3 := h3
        have := holdCount_set phases i (Phase.done r) Phase.holding hp
        simp [isHolding] at this
        show holdCount (phases.set i (Phase.done r)) ≤ 3
        omega
      · intro hm
        have hall := hdone hm
        have : isDoneB Phase.holding = true := hall _ (List.get?_mem hp)
        simp [isDoneB] at this
  | join phases hall =>
      exact ⟨h3, fun _ => hall⟩

theorem inv_reachable (n : Nat) (s : SyncState) (h : Reachable n s) : Inv s := by
  induction h with
  | refl => exact inv_init n
  | tail _ st ih => exact inv_step _ _ ih st

theorem get?_append_cons (l₁ : List Phase) (a : Phase) (l₂ : List Phase) :
    (l₁ ++ a :: l₂).get? l₁.length = some a := by
  induction l₁ with
  | nil => rfl
  | cons x xs ih => simpa using ih

theorem set_append_cons (l₁ : List Phase) (a b : Phase) (l₂ : List Phase) :
    (l₁ ++ a :: l₂).set l₁.length b = l₁ ++ b :: l₂ := by
  induction l₁ with
  | nil => rfl
  | cons x xs ih => simp [List.set, ih]

theorem holdCount_done_pending (pre : List Bool) (l₂ : List Phase)
    (h : ∀ p ∈ l₂, isHolding p = false) :
    holdCount (pre.map Phase.done ++ l₂) = 0 := by
  apply holdCount_eq_zero
  intro p hp
  rcases List.mem_append.1 hp with hmem | hmem
  · obtain ⟨r, _, hr⟩ := List.mem_map.1 hmem
    rw [← hr]; rfl
  · exact h p hmem

/-- A sequential schedule: with the first `pre` tasks already terminated and
`rest.length` tasks still pending, the scheduler can run the remaining tasks
one at a time (acquire, clone/pull with outcome `r`, release) until every
task is terminated with exactly the outcomes in `rest`. -/
theorem run_to_completion (rest pre : List Bool) :
    Relation.ReflTransGen SyncStep
      ⟨pre.map Phase.done ++ List.replicate rest.length Phase.pending, false⟩
      ⟨(pre ++ rest).map Phase.done, false⟩ := by
  induction rest generalizing pre with
  | nil => simp [Relation.ReflTransGen.refl]
  | cons r rs ih =>
      have hpend : ∀ p ∈ (Phase.pending :: List.replicate rs.length Phase.pending : List Phase),
          isHolding p = false := by
        intro p hp
        rcases List.mem_cons.1 hp with h | h
        · rw [h]; rfl
        · rw [List.eq_of_mem_replicate h]; rfl
      have step1 : SyncStep
          ⟨pre.map Phase.done ++ Phase.pending :: List.replicate rs.length Phase.pending, false⟩
          ⟨pre.map Phase.done ++ Phase.holding :: List.replicate rs.length Phase.pending, false⟩ := by
        have := SyncStep.acquire
          (pre.map Phase.done ++ Phase.pending :: List.replicate rs.length Phase.pending)
          false (pre.map Phase.done).length
          (get?_append_cons _ _ _)
          (by rw [holdCount_done_pending pre _ hpend]; omega)
        rwa [set_append_cons] at this
      have step2 : SyncStep
          ⟨pre.map Phase.done ++ Phase.holding :: List.replicate rs.length Phase.pending, false⟩
          ⟨pre.map Phase.done ++ Phase.done r :: List.replicate rs.length Phase.pending, false⟩ := by
        have := SyncStep.finish
          (pre.map Phase.done ++ Phase.holding :: List.replicate rs.length Phase.pending)
          false (pre.map Phase.done).length r
          (get?_append_cons _ _ _)
        rwa [set_append_cons] at this
      have tailSteps : Relation.ReflTransGen SyncStep
          ⟨pre.map Phase.done ++ Phase.done r :: List.replicate rs.length Phase.pending, false⟩
          ⟨(pre ++ r :: rs).map Phase.done, false⟩ := by
        have := ih (pre ++ [r])
        simpa [List.map_append, List.append_assoc] using this
      exact Relation.ReflTransGen.head step1
        (Relation.ReflTransGen.head step2 tailSteps)

/-- Every batch completes: for any assignment of per-driver outcomes
(including failures) there is a reachable state in which every task has
terminated with exactly that outcome and the main goroutine has passed
`wg.Wait()`. -/
theorem batch_completes (results : List Bool) :
    Reachable results.length ⟨results.map Phase.done, true⟩ := by
  have hrun : Relation.ReflTransGen SyncStep (initState results.length)
      ⟨results.map Phase.done, false⟩ := by
    have := run_to_completion results []
    simpa [initState] using this
  have hjoin : SyncStep ⟨results.map Phase.done, false⟩ ⟨results.map Phase.done, true⟩ := by
    apply SyncStep.join
    intro p hp
    obtain ⟨r, _, hr⟩ := List.mem_map.1 hp
    rw [← hr]; rfl
  exact Relation.ReflTransGen.tail hrun hjoin

theorem lastIndex_of_not_mem (l : List Char) (c : Char) (h : ∀ x ∈ l, x ≠ c) :
    lastIndex l c = -1 := by
  induction l with
  | nil => rfl
  | cons x xs ih =>
      have hx : x ≠ c := h x (List.mem_cons_self x xs)
      have hxs : lastIndex xs c = -1 :=
        ih (fun y hy => h y (List.mem_cons_of_mem x hy))
      simp [lastIndex, hxs, hx]

theorem lastIndex_spec (l : List Char) (c : Char) (h : c ∈ l) :
    ∃ n : Nat, lastIndex l c = n ∧ l[n]? = some c := by
  induction l with
  | nil => simp at h
  | cons x xs ih =>
      by_cases hc : c ∈ xs
      · obtain ⟨n, hn, hg⟩ := ih hc
        refine ⟨n + 1, ?_, ?_⟩
        · simp [lastIndex, hn]
        · simpa using hg
      · have hx : x = c := by
          rcases List.mem_cons.1 h with h' | h'
          · exact h'.symm
          · exact absurd h' hc
        have hxs : lastIndex xs c = -1 :=
          lastIndex_of_not_mem xs c
            (fun y hy => fun hyc => hc (hyc ▸ hy))
        refine ⟨0, ?_, ?_⟩
        · simp [lastIndex, hxs, hx]
        · simp [hx]

theorem formatCell_congr (d d' : driverStats) (t : uastType)
    (hf : d.fixturesUast = d'.fixturesUast) (hc : d.codeUast = d'.codeUast) :
    formatCell d t = formatCell d' t := by
  simp [formatCell, hf, hc]

/-! ## Claims -/

/-- C1 (counterexample): the claim says sync returns one SyncOutcome per
driver with a clone/pull failure recorded as that driver's outcome.  In the
code, `maybeCloneOrPullAll` returns a single `error`, and with one driver
whose clone/pull fails the returned value is still `nil` — identical to the
value returned when that driver succeeds — so no failure is recorded in any
outcome. -/
theorem c1_counterexample :
    maybeCloneOrPullAll true [false] = Except.ok () ∧
    maybeCloneOrPullAll true [false] = maybeCloneOrPullAll true [true] :=
  ⟨rfl, rfl⟩

/-- C1 (amended): the synchronizer processes every driver to completion —
for any assignment of per-driver outcomes, including failures, the batch
reaches a state where every task has terminated with exactly those outcomes
and the main goroutine has passed the join — so one driver's failure neither
aborts nor blocks the others; but no per-driver SyncOutcome is returned: the
function returns a single nil error, discarding the goroutine results. -/
theorem c1_batch_isolation (results : List Bool) :
    maybeCloneOrPullAll true results = Except.ok () ∧
    Reachable results.length ⟨results.map Phase.done, true⟩ :=
  ⟨rfl, batch_completes results⟩

/-- C2: in every reachable state of the batch, at most 3 sync tasks hold the
channel semaphore, and once the main goroutine has passed `wg.Wait()` (which
requires every task to have gone through its release-then-done exit path) no
task holds it. -/
theorem c2_concurrency_bound (n : Nat) (s : SyncState) (h : Reachable n s) :
    holdCount s.phases ≤ 3 ∧ (s.mainDone = true → holdCount s.phases = 0) := by
  obtain ⟨h3, hdone⟩ := inv_reachable n s h
  refine ⟨h3, fun hm => ?_⟩
  exact holdCount_eq_zero _
    (fun p hp => isHolding_eq_false_of_isDoneB p (hdone hm p hp))

/-- C2 witness: the bound holds at the initial state of a 5-driver batch. -/
theorem c2_concurrency_bound_witness :
    holdCount (initState 5).phases ≤ 3 ∧
      ((initState 5).mainDone = true → holdCount (initState 5).phases = 0) :=
  c2_concurrency_bound 5 (initState 5) Relation.ReflTransGen.refl

/-- C3 (counterexample): the claim says extraction is invoked only for
drivers whose sync did not fail and that a failed driver ends with empty
maps.  In the code the analysis loop of `run` is unconditional: a run in
which the only driver's sync fails is indistinguishable from one in which it
succeeds, the analysis passes do run over the failed driver, and its
`codeUast` ends as `[("Identifier", 1)]`, not empty. -/
theorem c3_counterexample :
    run [failedDriver] true [false] = run [failedDriver] true [true] ∧
    analyzeAll [failedDriver] findAllUastTypes
      = [{ failedDriver with codeUast := [("Identifier", 1)] }] ∧
    ({ failedDriver with codeUast := [("Identifier", 1)] }).codeUast ≠ [] :=
  ⟨rfl, rfl, by decide⟩

/-- C3 (amended): extraction runs for every driver regardless of sync
outcome — the analyzed list applies both passes positionally to every input
driver and has the same length, and the run output is independent of the
per-driver sync results — and a failed driver still appears in the report:
all of its cells render 0/0 because its only recorded key matches no catalog
entry. -/
theorem c3_analysis_unconditional (drivers : List driverStats)
    (syncResults : List Bool) (i : Nat) :
    (analyzeAll drivers findAllUastTypes)[i]?
      = (drivers[i]?).map (fun d => analyzeCode (analyzeFixtures d) findAllUastTypes) ∧
    (analyzeAll drivers findAllUastTypes).length = drivers.length ∧
    run drivers true syncResults
      = run drivers true (List.replicate syncResults.length true) ∧
    findAllUastTypes.map
        (formatCell (analyzeCode (analyzeFixtures failedDriver) findAllUastTypes))
      = List.replicate 16 " 0/0 |" := by
  refine ⟨List.getElem?_map _ _ _, by simp [analyzeAll], rfl, by decide⟩

/-- C4: a table cell reads both counts with the zero-default map lookup —
when a type name is absent from both maps the cell renders `0/0` — and for a
driver whose maps are empty every cell of its column renders `0/0`. -/
theorem c4_zero_default (d : driverStats) (t : uastType)
    (hf : mapFind d.fixturesUast t.name = none)
    (hc : mapFind d.codeUast t.name = none) :
    formatCell d t = " 0/0 |" ∧
    mapGet d.fixturesUast t.name = 0 ∧ mapGet d.codeUast t.name = 0 ∧
    (∀ t' : uastType, d.fixturesUast = [] → d.codeUast = [] →
      formatCell d t' = " 0/0 |") := by
  have h1 : mapGet d.fixturesUast t.name = 0 := by simp [mapGet, hf]
  have h2 : mapGet d.codeUast t.name = 0 := by simp [mapGet, hc]
  refine ⟨?_, h1, h2, ?_⟩
  · simp only [formatCell, h1, h2]
    rfl
  · intro t' hfe hce
    have e1 : mapGet d.fixturesUast t'.name = 0 := by
      simp [mapGet, mapFind, hfe]
    have e2 : mapGet d.codeUast t'.name = 0 := by
      simp [mapGet, mapFind, hce]
    simp only [formatCell, e1, e2]
    rfl

/-- C4 witness: driver B of the scenario (empty maps) renders `0/0` for the
catalog entry `uast.Comment`. -/
theorem c4_zero_default_witness :
    formatCell driverB ⟨"uast.Comment"⟩ = " 0/0 |" ∧
    mapGet driverB.fixturesUast "uast.Comment" = 0 ∧
    mapGet driverB.codeUast "uast.Comment" = 0 ∧
    (∀ t' : uastType, driverB.fixturesUast = [] → driverB.codeUast = [] →
      formatCell driverB t' = " 0/0 |") :=
  c4_zero_default driverB ⟨"uast.Comment"⟩ rfl rfl

/-- C5: on the scenario input (catalog `[Identifier, Comment]`, driver A with
fixture count 3 and code counts 1 and 2, driver B with empty maps) the
formatter produces the row `Identifier | 3/1 | 0/0`, the row
`Comment | 0/2 | 0/0`, and a header with columns A then B, in that order. -/
theorem c5_scenario :
    formatRow ⟨"Identifier"⟩ [driverA, driverB]
      = "|               Identifier| 3/1 | 0/0 |\n" ∧
    formatRow ⟨"Comment"⟩ [driverA, driverB]
      = "|                  Comment| 0/2 | 0/0 |\n" ∧
    formatMarkdownTableHeader [driverA, driverB]
      = "|                         |    A|    B|\n| :---------------------- | :-- | :-- |\n" ∧
    tableRows [driverA, driverB] scenarioCatalog
      = ["|               Identifier| 3/1 | 0/0 |\n",
         "|                  Comment| 0/2 | 0/0 |\n"] := by
  refine ⟨?_, ?_, ?_, ?_⟩ <;> decide

/-- C6: the report formatter is deterministic — two invocations on the same
inputs give the same text — and structural: row i of the table is the row of
catalog entry i (so rows follow catalog order and each catalog entry yields
exactly one row), header cell i belongs to driver i (columns follow input
order), and the full output is header text, table header, the joined rows,
then the footer. -/
theorem c6_deterministic (drivers : List driverStats) (catalog : List uastType) :
    formatMarkdownTable drivers catalog = formatMarkdownTable drivers catalog ∧
    (∀ i : Nat, (tableRows drivers catalog)[i]?
      = (catalog[i]?).map (fun t => formatRow t drivers)) ∧
    (∀ i : Nat, (headerLanguageCells drivers)[i]?
      = (drivers[i]?).map (fun d => padLeft d.language 5 ++ "|")) ∧
    (tableRows drivers catalog).length = catalog.length ∧
    formatMarkdownTable drivers catalog
      = header ++ formatMarkdownTableHeader drivers ++
          String.join (tableRows drivers catalog) ++ footer := by
  refine ⟨rfl, ?_, ?_, by simp [tableRows], rfl⟩
  · intro i
    simp [tableRows]
  · intro i
    simp [headerLanguageCells]

/-- C7: the join barrier — in any reachable state in which the main
goroutine has passed `wg.Wait()` (and so may proceed to the extraction and
report stages), every sync task has terminated, successfully or not. -/
theorem c7_join_barrier (n : Nat) (s : SyncState) (h : Reachable n s)
    (hm : s.mainDone = true) : ∀ p ∈ s.phases, isDoneB p = true :=
  (inv_reachable n s h).2 hm

/-- C7 witness: a completed 1-driver batch is reachable and all its tasks
are terminated. -/
theorem c7_join_barrier_witness :
    isDoneB (Phase.done true) = true :=
  c7_join_barrier 1 ⟨[Phase.done true], true⟩ (batch_completes [true]) rfl
    (Phase.done true) (List.mem_singleton.2 rfl)

/-- C8: `maybeCloneOrPullAll` returns nil whenever the clone-root creation
succeeds, returns only the MkdirAll error otherwise, and its return value is
identical for any two assignments of per-driver outcomes — a caller cannot
observe any per-driver sync failure from it. -/
theorem c8_return_independent (results results' : List Bool) :
    maybeCloneOrPullAll true results = Except.ok () ∧
    maybeCloneOrPullAll false results = Except.error "cannot create clone root" ∧
    maybeCloneOrPullAll true results = maybeCloneOrPullAll true results' :=
  ⟨rfl, rfl, rfl⟩

/-- C9: every catalog entry name starts with "uast." and in particular none
equals the bare key "Identifier" that `analyzeCode` increments, so for any
driver built with empty maps (as `listDrivers` builds them) every cell of
its report column renders `0/0` after both analysis passes. -/
theorem c9_key_mismatch :
    (∀ t ∈ findAllUastTypes, t.name ≠ "Identifier" ∧ t.name.take 5 = "uast.") ∧
    (∀ d : driverStats, d.fixturesUast = [] → d.codeUast = [] →
      findAllUastTypes.map
          (formatCell (analyzeCode (analyzeFixtures d) findAllUastTypes))
        = List.replicate 16 " 0/0 |") := by
  constructor
  · decide
  · intro d hf hc
    have hcell : ∀ t ∈ findAllUastTypes,
        formatCell (analyzeCode (analyzeFixtures d) findAllUastTypes) t
          = formatCell (analyzeCode (analyzeFixtures failedDriver) findAllUastTypes) t := by
      intro t _
      apply formatCell_congr
      · simp [analyzeCode, analyzeFixtures, hf, failedDriver]
      · simp [analyzeCode, analyzeFixtures, hc, failedDriver]
    rw [List.map_congr_left hcell]
    decide

/-- C9 witness: the catalog entry `uast.Comment` differs from "Identifier",
and the concrete empty-map driver renders `0/0` in all 16 catalog rows. -/
theorem c9_key_mismatch_witness :
    ((⟨"uast.Comment"⟩ : uastType).name ≠ "Identifier" ∧
      (⟨"uast.Comment"⟩ : uastType).name.take 5 = "uast.") ∧
    findAllUastTypes.map
        (formatCell (analyzeCode (analyzeFixtures failedDriver) findAllUastTypes))
      = List.replicate 16 " 0/0 |" :=
  ⟨c9_key_mismatch.1 ⟨"uast.Comment"⟩ (by decide),
   c9_key_mismatch.2 failedDriver rfl rfl⟩

/-- C10: the path derivation of `listDrivers` is partial — for a URL with no
"/" the LastIndex is -1 and the slice panics (modelled as `none`) — and when
a "/" is present the derived path is the suffix starting at the last "/",
hence begins with the "/" itself. -/
theorem c10_path_derivation (url : String) :
    ((∀ ch ∈ url.data, ch ≠ '/') → derivePath url = none) ∧
    ('/' ∈ url.data → ∃ t, derivePath url = some t ∧ t.data.head? = some '/') := by
  constructor
  · intro h
    simp [derivePath, lastIndex_of_not_mem url.data '/' h]
  · intro h
    obtain ⟨n, hn, hg⟩ := lastIndex_spec url.data '/' h
    have hnn : ¬((n : Int) < 0) := by omega
    refine ⟨String.mk (url.data.drop n), ?_, ?_⟩
    · simp only [derivePath, hn]
      rw [if_neg hnn]
      simp
    · show (url.data.drop n).head? = some '/'
      rw [List.head?_drop]
      exact hg

/-- C10 witness: "nodash" has no slash and the derivation panics; the
real-shaped URL derives a path beginning with "/". -/
theorem c10_path_derivation_witness :
    derivePath "nodash" = none ∧
    (∃ t, derivePath "github.com/bblfsh/python-driver" = some t ∧
      t.data.head? = some '/') :=
  ⟨(c10_path_derivation "nodash").1 (by decide),
   (c10_path_derivation "github.com/bblfsh/python-driver").2 (by decide)⟩

end TypesTool
